import Mathlib

/-!
Verification of the selection-and-caching engine of `random_pokemon.py`
(the Pokémon team generator).

The Python source is shallowly embedded as follows.

* JSON documents fetched from the remote catalog are abstracted to the
  fields the engine actually reads: `Pokemon` models a decoded primary
  record (`pokemon_data`), `Species` a species record (`species_data`,
  with the `is_legendary` / `is_mythical` flags read through
  `dict.get(..., False)` folded into total `Bool` fields, and the
  `evolution_chain.url` reference), and `EvoNode` a decoded
  evolution-chain tree node (the id already extracted from the species
  URL, as `int(species_url.split('/')[-2])` does).
* The network is a deterministic environment `Env`: each fetch either
  yields a decoded document (`some`) or fails (`none`), covering both
  `requests` errors and decode errors, which the source catches at every
  call site.  `Env.allNames` is the name index returned by
  `get_all_pokemon` (empty on failure).
* The three module-level caches (`pokemon_cache`, `species_cache`,
  `evolution_cache`) form the state `St`, threaded explicitly through
  every function that reads or writes them.  Python dict update/lookup
  is modelled by an association list with cons-update and
  first-match lookup, which has the same observable lookup behaviour.
  Because `json.dump` writes `int` dict keys as JSON strings and
  `json.load` returns string keys, the two persisted caches are keyed
  by `JKey`, the sum of the two key types that actually occur in those
  dicts at runtime.
* `random.shuffle` inside `get_random_pokemon` is an oracle
  `rho : Nat → List Nat` giving the shuffled candidate list used by the
  n-th call of one generation cycle; a faithful run has `rho n` a
  permutation of the candidate list.  The `while len(selected) < 6`
  loop of `generate_pokemon_team` adds exactly one entry per iteration
  or breaks, so it is embedded with fuel `6 - len(selected)`.
* The concurrent prefetcher (`ThreadPoolExecutor.map`) is sequentialized
  over its id list; its cache effect (insert each missing fetchable id)
  is order-insensitive for a fixed environment.
* All UI code (tkinter widgets, sprites, the shiny Bernoulli draw and
  the rendering in `update_ui`) is outside the engine and not modelled.

Ids are natural numbers (the source only ever handles positive ids).
-/

/-- A decoded primary record (`pokemon_data`): the fields the engine
reads.  `types` is the projection `[t['type']['name'] for t in data['types']]`. -/
structure Pokemon where
  id : Nat
  name : String
  types : List String
  height : Nat
  weight : Nat
deriving DecidableEq

/-- A decoded species record (`species_data`): the `is_legendary` and
`is_mythical` flags (absent keys read as `False` via `.get`), and the
evolution-chain document URL `data['evolution_chain']['url']`. -/
structure Species where
  legendary : Bool
  mythical : Bool
  evoUrl : String
deriving DecidableEq

/-- A decoded evolution-chain tree node: the contained species id and the
`evolves_to` child list, in document order. -/
inductive EvoNode where
  | mk (id : Nat) (evolvesTo : List EvoNode)

/-- A runtime key of the persisted caches.  Fetch paths insert `int`
keys; `json.load` produces `str` keys. -/
inductive JKey where
  | num (n : Nat)
  | str (s : String)
deriving DecidableEq

/-- The string a key is written as by `json.dump` (Python serializes an
`int` dict key as its decimal string). -/
def keyStr : JKey → String
  | .num n => toString n
  | .str s => s

/-- The deterministic remote environment: each operation either returns a
decoded document or fails (`none`). -/
structure Env where
  pokemon : Nat → Option Pokemon
  species : Nat → Option Species
  chain : String → Option EvoNode
  allNames : List String

/-- The module-level mutable cache state: `pokemon_cache`,
`species_cache`, `evolution_cache`.  (`sprite_cache` is presentation.) -/
structure St where
  pcache : List (JKey × Pokemon)
  scache : List (JKey × Species)
  ecache : List (Nat × List Nat)
deriving DecidableEq

/-- The empty startup state. -/
def st0 : St := ⟨[], [], []⟩

/-- First-match association-list lookup: the observable behaviour of a
Python dict built by assignment (an update is modelled by a fresh cons,
so the most recent binding is found first). -/
def alookup {α β : Type} [DecidableEq α] (k : α) : List (α × β) → Option β
  | [] => none
  | (k', v) :: rest => if k' = k then some v else alookup k rest

/-- `pokemon_id in pokemon_cache` / `pokemon_cache[pokemon_id]` with an
integer id. -/
def lookupP (st : St) (i : Nat) : Option Pokemon := alookup (JKey.num i) st.pcache

/-- `pokemon_cache[pokemon_id] = data`. -/
def insertP (i : Nat) (d : Pokemon) (st : St) : St :=
  { st with pcache := (JKey.num i, d) :: st.pcache }

/-- `pokemon_id in species_cache` / `species_cache[pokemon_id]`. -/
def lookupS (st : St) (i : Nat) : Option Species := alookup (JKey.num i) st.scache

/-- `species_cache[pokemon_id] = data`. -/
def insertS (i : Nat) (s : Species) (st : St) : St :=
  { st with scache := (JKey.num i, s) :: st.scache }

/-- `pokemon_id in evolution_cache` / `evolution_cache[pokemon_id]`. -/
def lookupE (st : St) (i : Nat) : Option (List Nat) := alookup i st.ecache

/-- `evolution_cache[pokemon_id] = evolution_chain`. -/
def insertE (i : Nat) (c : List Nat) (st : St) : St :=
  { st with ecache := (i, c) :: st.ecache }

/-- `save_cache`: `json.dump` of both persisted caches; every dict key is
written as a string. -/
def saveCache (st : St) : List (String × Pokemon) × List (String × Species) :=
  (st.pcache.map (fun p => (keyStr p.1, p.2)),
   st.scache.map (fun p => (keyStr p.1, p.2)))

/-- `load_cache`: `json.load` replaces the two persisted caches wholesale;
all loaded keys are strings.  `evolution_cache` is untouched. -/
def loadCache (st : St) (files : List (String × Pokemon) × List (String × Species)) : St :=
  { st with pcache := files.1.map (fun p => (JKey.str p.1, p.2)),
            scache := files.2.map (fun p => (JKey.str p.1, p.2)) }

/-- Python `range a b` (i.e. `range(a, b)` with `b - a` elements). -/
def pyRange (a : Nat) : Nat → List Nat
  | 0 => []
  | n + 1 => a :: pyRange (a + 1) n

/-- The fixed `gen_ranges` table (identical in `get_random_pokemon` and
`generate_pokemon_team`).  A generation outside 1–9 raises `KeyError` in
the source and cannot be supplied by the UI; it is modelled as `none`. -/
def genRanges (g : Nat) : Option (Nat × Nat) :=
  match g with
  | 1 => some (1, 151)
  | 2 => some (152, 251)
  | 3 => some (252, 386)
  | 4 => some (387, 493)
  | 5 => some (494, 649)
  | 6 => some (650, 721)
  | 7 => some (722, 809)
  | 8 => some (810, 905)
  | 9 => some (906, 1025)
  | _ => none

/-- The candidate id list: `valid_ids` / `pokemon_ids`, built by extending
with `range(start, end + 1)` for each selected generation in order. -/
def validIds (gens : List Nat) : List Nat :=
  gens.foldl (fun acc g =>
    match genRanges g with
    | some (s, e) => acc ++ pyRange s (e + 1 - s)
    | none => acc) []

/-- Python `list.index` returning `None` instead of raising `ValueError`:
the position of the first occurrence of `name`. -/
def nameIndex (names : List String) (name : String) : Option Nat :=
  match names with
  | [] => none
  | n :: rest => if n = name then some 0 else (nameIndex rest name).map (· + 1)

mutual
/-- The `extract_chain` traversal of `get_evolution_chain`: append the
node's id to the shared output list, then recurse into each `evolves_to`
child in document order.  The mutated list is the accumulator. -/
def extractChain (acc : List Nat) : EvoNode → List Nat
  | .mk i cs => extractChainList (acc ++ [i]) cs

/-- Folds `extract_chain` over a child list, threading the shared output
list. -/
def extractChainList (acc : List Nat) : List EvoNode → List Nat
  | [] => acc
  | c :: cs => extractChainList (extractChain acc c) cs
end

mutual
/-- Modelled from the spec: the pre-order traversal of an evolution tree
("at each node, extract the contained id, append to the output sequence,
then recurse into each listed child node in presentation order"). -/
def preorder : EvoNode → List Nat
  | .mk i cs => i :: preorderList cs

/-- Pre-order traversal of a forest, children in presentation order. -/
def preorderList : List EvoNode → List Nat
  | [] => []
  | c :: cs => preorder c ++ preorderList cs
end

/-- `get_pokemon_data`: memory tier first; on a miss fetch, cache on
success, return `None` (cache untouched) on failure. -/
def getPokemonData (env : Env) (st : St) (i : Nat) : Option Pokemon × St :=
  match lookupP st i with
  | some d => (some d, st)
  | none =>
    match env.pokemon i with
    | some d => (some d, insertP i d st)
    | none => (none, st)

/-- `get_pokemon_species_data`: same contract for the species cache. -/
def getSpeciesData (env : Env) (st : St) (i : Nat) : Option Species × St :=
  match lookupS st i with
  | some s => (some s, st)
  | none =>
    match env.species i with
    | some s => (some s, insertS i s st)
    | none => (none, st)

/-- `get_evolution_chain`: cached chain if present; otherwise fetch the
species record (populating the species cache on success), fetch the chain
document at its referenced URL, traverse it, and cache the result under
the original queried id.  Any failure yields `[]` and caches nothing in
`evolution_cache`. -/
def getEvolutionChain (env : Env) (st : St) (i : Nat) : List Nat × St :=
  match lookupE st i with
  | some c => (c, st)
  | none =>
    let r := getSpeciesData env st i
    match r.1 with
    | none => ([], r.2)
    | some s =>
      match env.chain s.evoUrl with
      | none => ([], r.2)
      | some root =>
        let c := extractChain [] root
        (c, insertE i c r.2)

/-- `is_fully_evolved`: `True` on an empty chain, else
`pokemon_id == evolution_chain[-1]`. -/
def isFullyEvolved (env : Env) (st : St) (i : Nat) : Bool × St :=
  let r := getEvolutionChain env st i
  match r.1.getLast? with
  | none => (true, r.2)
  | some l => (i == l, r.2)

/-- `is_legendary`: `False` when the species record is unavailable, else
the disjunction of the two notability flags. -/
def isLegendary (env : Env) (st : St) (i : Nat) : Bool × St :=
  let r := getSpeciesData env st i
  match r.1 with
  | none => (false, r.2)
  | some s => (s.legendary || s.mythical, r.2)

/-- `prefetch_pokemon_data`: best-effort warm of the primary cache for
every listed id (sequentialized; each missing fetchable id is inserted,
failures are swallowed). -/
def prefetchPokemon (env : Env) (ids : List Nat) (st : St) : St :=
  ids.foldl (fun st i =>
    match lookupP st i with
    | some _ => st
    | none =>
      match env.pokemon i with
      | some d => insertP i d st
      | none => st) st

/-- `prefetch_species_data`: the same warm for the species cache. -/
def prefetchSpecies (env : Env) (ids : List Nat) (st : St) : St :=
  ids.foldl (fun st i =>
    match lookupS st i with
    | some _ => st
    | none =>
      match env.species i with
      | some s => insertS i s st
      | none => st) st

/-- `get_random_pokemon` after the shuffle: walk the shuffled candidate
list; skip unfetchable records, then (in source order) the evolution
filter, the legendary filter, and the type-overlap test against
`existing_types` when that argument is not `None`; return the first
survivor.  Python's short-circuit `and` means the stage predicates run
only when their toggle is set. -/
def getRandomPokemon (env : Env) (st : St) (shuffled : List Nat)
    (existingTypes : Option (List String)) (evoF legF : Bool) : Option Pokemon × St :=
  match shuffled with
  | [] => (none, st)
  | i :: rest =>
    let r := getPokemonData env st i
    match r.1 with
    | none => getRandomPokemon env r.2 rest existingTypes evoF legF
    | some d =>
      let e := if evoF then
                 (let q := isFullyEvolved env r.2 i; (!q.1, q.2))
               else (false, r.2)
      if e.1 then getRandomPokemon env e.2 rest existingTypes evoF legF
      else
        let g := if legF then isLegendary env e.2 i else (false, e.2)
        if g.1 then getRandomPokemon env g.2 rest existingTypes evoF legF
        else
          match existingTypes with
          | some ts =>
            if d.types.any (fun t => decide (t ∈ ts)) then
              getRandomPokemon env g.2 rest existingTypes evoF legF
            else (some d, g.2)
          | none => (some d, g.2)

/-- The sampler's accumulator inside `generate_pokemon_team`:
`selected_pokemon`, `selected_types`, the manual-pick warnings shown so
far, and the cache state. -/
structure TeamState where
  roster : List Pokemon
  usedTypes : List String
  warns : List String
  st : St
deriving DecidableEq

/-- One manual selector of `generate_pokemon_team`: an empty selection is
skipped; a name missing from the index (`ValueError`) or an unfetchable
record is skipped silently; with the legendary filter on, a notable pick
is skipped with a user-visible warning; otherwise the record is appended
and, when the type filter is on, its types are merged into
`selected_types`.  No type or evolution test is applied. -/
def processManualOne (env : Env) (typeF legF : Bool) (ts : TeamState) (name : String) :
    TeamState :=
  if name = "" then ts else
  match nameIndex env.allNames name with
  | none => ts
  | some k =>
    let i := k + 1
    let r := getPokemonData env ts.st i
    match r.1 with
    | none => { ts with st := r.2 }
    | some d =>
      if legF then
        let g := isLegendary env r.2 i
        if g.1 then { ts with warns := ts.warns ++ [name], st := g.2 }
        else
          { roster := ts.roster ++ [d],
            usedTypes := if typeF then ts.usedTypes ++ d.types else ts.usedTypes,
            warns := ts.warns, st := g.2 }
      else
        { roster := ts.roster ++ [d],
          usedTypes := if typeF then ts.usedTypes ++ d.types else ts.usedTypes,
          warns := ts.warns, st := r.2 }

/-- The manual-selection loop over the six selector values. -/
def processManual (env : Env) (typeF legF : Bool) (names : List String) (ts : TeamState) :
    TeamState :=
  names.foldl (processManualOne env typeF legF) ts

/-- The `while len(selected_pokemon) < 6` fill loop: each round draws one
random candidate (the n-th round uses the shuffle `rho n`); a failed
round warns (`CandidatesExhausted`, the `Bool` in the result) and breaks;
a successful round appends the record and, with the type filter on,
merges its types.  Fuel is `6 - len(selected_pokemon)`, which the loop
consumes one entry at a time. -/
def fillLoop (env : Env) (rho : Nat → List Nat) (typeF evoF legF : Bool) :
    Nat → Nat → List Pokemon → List String → St → List Pokemon × Bool × St
  | _, 0, sel, _, st => (sel, false, st)
  | k, fuel + 1, sel, types, st =>
    let r := getRandomPokemon env st (rho k)
               (if typeF then some types else none) evoF legF
    match r.1 with
    | none => (sel, true, r.2)
    | some d =>
      fillLoop env rho typeF evoF legF (k + 1) fuel (sel ++ [d])
        (if typeF then types ++ d.types else types) r.2

/-- The prefetch-and-manual prefix of `generate_pokemon_team`: warm both
caches for the candidate range, then run the six manual selectors. -/
def manualStage (env : Env) (gens : List Nat) (names : List String)
    (typeF legF : Bool) (st : St) : TeamState :=
  let ids := validIds gens
  processManual env typeF legF names
    ⟨[], [], [], prefetchSpecies env ids (prefetchPokemon env ids st)⟩

/-- The outcome of one generation cycle: the finished roster, the
candidates-exhausted flag, the manual-pick warnings, and the final cache
state.  (The shiny draw and rendering in `update_ui` are presentation.) -/
structure TeamResult where
  roster : List Pokemon
  exhausted : Bool
  warns : List String
  st : St
deriving DecidableEq

/-- `generate_pokemon_team` (the engine part): prefetch, manual picks,
then the random fill loop.  The empty-generation check happens in
`show_pokemon` before this body runs. -/
def generateTeam (env : Env) (rho : Nat → List Nat) (gens : List Nat)
    (names : List String) (typeF evoF legF : Bool) (st : St) : TeamResult :=
  let ts := manualStage env gens names typeF legF st
  let f := fillLoop env rho typeF evoF legF 0 (6 - ts.roster.length)
             ts.roster ts.usedTypes ts.st
  ⟨f.1, f.2.1, ts.warns, f.2.2⟩

/-! Concrete inputs used by counterexamples and witnesses. -/

/-- A grass/poison record at id 1. -/
def pA : Pokemon := ⟨1, "Bulbasaur", ["grass", "poison"], 7, 69⟩

/-- A second grass/poison record at id 2 (shares both tags with `pA`). -/
def pB : Pokemon := ⟨2, "Oddish", ["grass", "poison"], 5, 54⟩

/-- A fire record at id 2 (type-disjoint from `pA`). -/
def pC : Pokemon := ⟨2, "Charmander", ["fire"], 6, 85⟩

/-- A psychic record at id 1 whose species is legendary. -/
def pLeg : Pokemon := ⟨1, "Mewtwo", ["psychic"], 20, 1220⟩

/-- A species record with the legendary flag set. -/
def sLeg : Species := ⟨true, false, "chain-url-1"⟩

/-- A remote source where every fetch fails. -/
def envNone : Env := ⟨fun _ => none, fun _ => none, fun _ => none, []⟩

/-- A remote source where only id 1 (`pA`) is fetchable. -/
def envMono : Env :=
  ⟨fun i => if i = 1 then some pA else none, fun _ => none, fun _ => none, []⟩

/-- A remote source with two type-overlapping records and their names in
the index. -/
def envDuo : Env :=
  ⟨fun i => if i = 1 then some pA else if i = 2 then some pB else none,
   fun _ => none, fun _ => none, ["Bulbasaur", "Oddish"]⟩

/-- A remote source with two type-disjoint records. -/
def envFire : Env :=
  ⟨fun i => if i = 1 then some pA else if i = 2 then some pC else none,
   fun _ => none, fun _ => none, []⟩

/-- A remote source whose only entity (id 1) is legendary. -/
def envLeg : Env :=
  ⟨fun i => if i = 1 then some pLeg else none,
   fun i => if i = 1 then some sLeg else none,
   fun _ => none, ["Mewtwo"]⟩

/-! Predicates used by the roster invariants. -/

/-- The primary cache agrees with the remote source: every cached record
is what the source returns for that id. -/
def CohP (env : Env) (st : St) : Prop :=
  ∀ i d, alookup (JKey.num i) st.pcache = some d → env.pokemon i = some d

/-- The source tags records with their own id (`data['id']` equals the
requested id). -/
def EnvWF (env : Env) : Prop :=
  ∀ i d, env.pokemon i = some d → d.id = i

/-- Every fetchable record has a non-empty type-tag set. -/
def EnvTypesNE (env : Env) : Prop :=
  ∀ i d, env.pokemon i = some d → d.types ≠ []

/-- Two records share no type tag. -/
def TypeDisj (a b : Pokemon) : Prop :=
  ∀ t, t ∈ a.types → t ∈ b.types → False

/-- Committed-roster invariant: every entry is the source's record for
its id, and (with the type filter) its tags are merged into `types`. -/
def RosterInv (env : Env) (sel : List Pokemon) (types : List String) : Prop :=
  (∀ s, s ∈ sel → env.pokemon s.id = some s) ∧
  (∀ s, s ∈ sel → ∀ t, t ∈ s.types → t ∈ types)

/-! Helper lemmas. -/

theorem mem_pyRange (x : Nat) : ∀ (n a : Nat), x ∈ pyRange a n ↔ a ≤ x ∧ x < a + n := by
  intro n
  induction n with
  | zero => intro a; simp [pyRange]
  | succ n ih =>
    intro a
    simp only [pyRange, List.mem_cons, ih (a + 1)]
    omega

mutual
theorem extractChain_eq : ∀ (acc : List Nat) (t : EvoNode),
    extractChain acc t = acc ++ preorder t
  | acc, .mk i cs => by
    rw [extractChain, preorder, extractChainList_eq (acc ++ [i]) cs]
    simp

theorem extractChainList_eq : ∀ (acc : List Nat) (cs : List EvoNode),
    extractChainList acc cs = acc ++ preorderList cs
  | acc, [] => by simp [extractChainList, preorderList]
  | acc, c :: cs => by
    rw [extractChainList, preorderList, extractChain_eq acc c,
      extractChainList_eq (acc ++ preorder c) cs]
    simp
end

/-- `getSpeciesData` never touches the primary cache. -/
theorem getSpeciesData_pcache (env : Env) (st : St) (i : Nat) :
    ((getSpeciesData env st i).2).pcache = st.pcache := by
  simp only [getSpeciesData]
  cases hl : lookupS st i with
  | some s => simp [hl]
  | none => cases he : env.species i <;> simp [hl, he, insertS]

/-- `getSpeciesData` never touches the evolution cache. -/
theorem getSpeciesData_ecache (env : Env) (st : St) (i : Nat) :
    ((getSpeciesData env st i).2).ecache = st.ecache := by
  simp only [getSpeciesData]
  cases hl : lookupS st i with
  | some s => simp [hl]
  | none => cases he : env.species i <;> simp [hl, he, insertS]

/-- A failed species fetch is fully state-preserving. -/
theorem speciesData_none_eq (env : Env) (st : St) (i : Nat)
    (h : (getSpeciesData env st i).1 = none) : getSpeciesData env st i = (none, st) := by
  simp only [getSpeciesData] at h ⊢
  cases hl : lookupS st i with
  | some s => simp [hl] at h
  | none => cases he : env.species i <;> simp [hl, he] at h ⊢

/-- Integer-key lookup never finds anything in a string-keyed list. -/
theorem alookup_num_map_str {β : Type} (l : List (String × β)) (i : Nat) :
    alookup (JKey.num i) (l.map fun p => (JKey.str p.1, p.2)) = none := by
  induction l with
  | nil => rfl
  | cons p rest ih => simp [alookup, ih]

/-! Claim theorems. -/

/-- C4: `is_fully_evolved(id)` is true iff the resolved chain is empty or
`id` is the last element of the non-empty chain, and false otherwise. -/
theorem fully_evolved_iff_last_of_chain (env : Env) (st : St) (i : Nat) :
    (isFullyEvolved env st i).1 = true ↔
      ((getEvolutionChain env st i).1 = [] ∨
        (getEvolutionChain env st i).1.getLast? = some i) := by
  cases h : (getEvolutionChain env st i).1.getLast? with
  | none =>
    have hnil : (getEvolutionChain env st i).1 = [] := List.getLast?_eq_none_iff.mp h
    simp [isFullyEvolved, h, hnil]
  | some l =>
    have hne : (getEvolutionChain env st i).1 ≠ [] := by
      intro hc
      rw [hc] at h
      simp at h
    have hval : (isFullyEvolved env st i).1 = (i == l) := by
      simp [isFullyEvolved, h]
    rw [hval]
    constructor
    · intro hb
      right
      have hil : i = l := by simpa using hb
      rw [hil]
    · intro hr
      rcases hr with hnil | hsome
      · exact absurd hnil hne
      · have hli : l = i := by simpa using hsome
        simp [hli]

/-- C5: the chain produced by `get_evolution_chain`'s traversal is exactly
the pre-order traversal of the document tree (node before its subtrees,
children in presentation order); being a function of the tree, it is
deterministic for a fixed document graph. -/
theorem evolution_chain_is_preorder (t : EvoNode) : extractChain [] t = preorder t := by
  simpa using extractChain_eq [] t

/-- C6: the candidate set of generation selection {1} is exactly ids
1..151, and of {1,3} exactly 1..151 together with 252..386. -/
theorem candidate_set_generations_union (x : Nat) :
    (x ∈ validIds [1] ↔ (1 ≤ x ∧ x ≤ 151)) ∧
    (x ∈ validIds [1, 3] ↔ ((1 ≤ x ∧ x ≤ 151) ∨ (252 ≤ x ∧ x ≤ 386))) := by
  have h1 : validIds [1] = pyRange 1 151 := rfl
  have h13 : validIds [1, 3] = pyRange 1 151 ++ pyRange 252 135 := rfl
  constructor
  · rw [h1, mem_pyRange]
    omega
  · rw [h13]
    simp only [List.mem_append, mem_pyRange]
    omega

/-- C9: `is_legendary(id)` is true iff the species record as fetched has
its legendary or mythical flag set, and is false (not an error) when the
species record is unavailable. -/
theorem legendary_iff_species_flags (env : Env) (st : St) (i : Nat) :
    ((isLegendary env st i).1 = true ↔
      ∃ s, (getSpeciesData env st i).1 = some s ∧ (s.legendary || s.mythical) = true) ∧
    ((getSpeciesData env st i).1 = none → (isLegendary env st i).1 = false) := by
  cases h : (getSpeciesData env st i).1 with
  | none => simp [isLegendary, h]
  | some s => simp [isLegendary, h]

/-- Witness for C9 at a concrete unavailable species record. -/
theorem legendary_iff_species_flags_witness :
    (getSpeciesData envNone st0 7).1 = none ∧ (isLegendary envNone st0 7).1 = false :=
  ⟨rfl, (legendary_iff_species_flags envNone st0 7).2 rfl⟩

/-- C10: a failed fetch is atomic: `get_pokemon_data` and
`get_pokemon_species_data` return `None` with the state unchanged,
`get_evolution_chain` returns `[]` with `evolution_cache` unchanged
(whether the species record or the chain document is the part that
fails), and a later call for the same id performs the fetch again. -/
theorem fetch_failure_leaves_caches (env : Env) (st : St) (i : Nat) :
    (lookupP st i = none → env.pokemon i = none → getPokemonData env st i = (none, st)) ∧
    (lookupS st i = none → env.species i = none → getSpeciesData env st i = (none, st)) ∧
    (lookupE st i = none → (getSpeciesData env st i).1 = none →
      getEvolutionChain env st i = ([], st)) ∧
    (lookupE st i = none → ∀ s, (getSpeciesData env st i).1 = some s →
      env.chain s.evoUrl = none →
      (getEvolutionChain env st i).1 = [] ∧
        (getEvolutionChain env st i).2.ecache = st.ecache) ∧
    (lookupP st i = none → ∀ env2 d2, env2.pokemon i = some d2 →
      (getPokemonData env2 st i).1 = some d2) := by
  refine ⟨?_, ?_, ?_, ?_, ?_⟩
  · intro h1 h2
    simp [getPokemonData, lookupP] at h1 ⊢
    simp [h1, h2]
  · intro h1 h2
    simp [getSpeciesData, lookupS] at h1 ⊢
    simp [h1, h2]
  · intro h1 h2
    have hs := speciesData_none_eq env st i h2
    simp [getEvolutionChain, lookupE] at h1 ⊢
    simp [h1, hs]
  · intro h1 s hs hc
    simp only [lookupE] at h1
    simp [getEvolutionChain, lookupE, h1, hs, hc, getSpeciesData_ecache]
  · intro h1 env2 d2 h3
    simp [lookupP] at h1
    simp [getPokemonData, lookupP, h1, h3]

/-- Witness for C10 at a concrete failing fetch. -/
theorem fetch_failure_leaves_caches_witness :
    lookupP st0 9 = none ∧ envNone.pokemon 9 = none ∧
      getPokemonData envNone st0 9 = (none, st0) :=
  ⟨rfl, rfl, (fetch_failure_leaves_caches envNone st0 9).1 rfl rfl⟩

/-- C2 (code behavior at the failing input): after `save_cache` and a
fresh `load_cache`, the memory tier holds the same number of records with
identical field values, but every key is a string (`json` stringifies
integer dict keys), so every integer-id lookup — the only lookup the
fetch path performs — misses. -/
theorem cache_roundtrip_int_lookup_misses (st : St) (i : Nat) :
    lookupP (loadCache st0 (saveCache st)) i = none ∧
    lookupS (loadCache st0 (saveCache st)) i = none ∧
    (loadCache st0 (saveCache st)).pcache.length = st.pcache.length ∧
    (loadCache st0 (saveCache st)).pcache.map (fun p => p.2) =
      st.pcache.map (fun p => p.2) ∧
    (loadCache st0 (saveCache st)).scache.map (fun p => p.2) =
      st.scache.map (fun p => p.2) := by
  refine ⟨?_, ?_, ?_, ?_, ?_⟩
  · exact alookup_num_map_str (saveCache st).1 i
  · exact alookup_num_map_str (saveCache st).2 i
  · simp [loadCache, saveCache]
  · simp [loadCache, saveCache, List.map_map]
  · simp [loadCache, saveCache, List.map_map]

/-- Unfolding lemma for `alookup` on a cons cell. -/
theorem alookup_cons {α β : Type} [DecidableEq α] (k k' : α) (v : β) (rest : List (α × β)) :
    alookup k ((k', v) :: rest) = if k' = k then some v else alookup k rest := rfl

/-- Coherence only depends on the primary cache. -/
theorem cohP_of_pcache_eq {env : Env} {st st' : St} (h : st'.pcache = st.pcache)
    (hc : CohP env st) : CohP env st' := by
  intro i d hd
  apply hc
  rw [← h]
  exact hd

/-- `get_pokemon_data` keeps the primary cache coherent with the source. -/
theorem getPokemonData_coh (env : Env) (st : St) (i : Nat) (hc : CohP env st) :
    CohP env (getPokemonData env st i).2 := by
  simp only [getPokemonData]
  cases hl : lookupP st i with
  | some d => simpa [hl] using hc
  | none =>
    cases he : env.pokemon i with
    | none => simpa [hl, he] using hc
    | some d =>
      simp only [hl, he]
      intro j e hj
      rw [insertP, alookup_cons] at hj
      by_cases h2 : JKey.num i = JKey.num j
      · rw [if_pos h2] at hj
        have hij : i = j := by simpa using h2
        subst hij
        have hde : d = e := by simpa using hj
        subst hde
        exact he
      · rw [if_neg h2] at hj
        exact hc j e hj

/-- A record returned by `get_pokemon_data` over a coherent cache is the
source's record for that id. -/
theorem getPokemonData_sound (env : Env) (st : St) (i : Nat) (d : Pokemon)
    (hc : CohP env st) (h : (getPokemonData env st i).1 = some d) :
    env.pokemon i = some d := by
  simp only [getPokemonData] at h
  cases hl : lookupP st i with
  | some d' =>
    rw [hl] at h
    simp at h
    subst h
    exact hc i d' hl
  | none =>
    cases he : env.pokemon i with
    | none =>
      rw [hl, he] at h
      simp at h
    | some d' =>
      rw [hl, he] at h
      simp at h
      subst h
      rfl

/-- `get_evolution_chain` never touches the primary cache. -/
theorem getEvolutionChain_pcache (env : Env) (st : St) (i : Nat) :
    ((getEvolutionChain env st i).2).pcache = st.pcache := by
  simp only [getEvolutionChain]
  cases hl : lookupE st i with
  | some c => simp [hl]
  | none =>
    cases hs : (getSpeciesData env st i).1 with
    | none => simp [hl, hs, getSpeciesData_pcache]
    | some s =>
      cases hc : env.chain s.evoUrl with
      | none => simp [hl, hs, hc, getSpeciesData_pcache]
      | some root => simp [hl, hs, hc, insertE, getSpeciesData_pcache]

/-- `is_fully_evolved` never touches the primary cache. -/
theorem isFullyEvolved_pcache (env : Env) (st : St) (i : Nat) :
    ((isFullyEvolved env st i).2).pcache = st.pcache := by
  simp only [isFullyEvolved]
  cases h : (getEvolutionChain env st i).1.getLast? <;> simp [h, getEvolutionChain_pcache]

/-- `is_legendary` never touches the primary cache. -/
theorem isLegendary_pcache (env : Env) (st : St) (i : Nat) :
    ((isLegendary env st i).2).pcache = st.pcache := by
  simp only [isLegendary]
  cases h : (getSpeciesData env st i).1 <;> simp [h, getSpeciesData_pcache]

/-- The legendary stage of a fill round keeps the primary cache
coherent whether or not the filter runs. -/
theorem legStage_coh (env : Env) (legF : Bool) (X : St) (i : Nat) (hcX : CohP env X) :
    CohP env (if legF = true then isLegendary env X i else (false, X)).2 := by
  cases legF with
  | false => simpa using hcX
  | true => simpa using cohP_of_pcache_eq (isLegendary_pcache env X i) hcX

/-- Soundness of one fill round with the type filter active: a returned
record is the source's record for its own id, its tags avoid
`existing_types`, and the caches stay coherent. -/
theorem getRandomPokemon_sound (env : Env) (ts : List String) (evoF legF : Bool)
    (hwf : EnvWF env) :
    ∀ (ids : List Nat) (st : St) (d : Pokemon) (st' : St),
      CohP env st →
      getRandomPokemon env st ids (some ts) evoF legF = (some d, st') →
      env.pokemon d.id = some d ∧ (∀ t, t ∈ d.types → t ∉ ts) ∧ CohP env st' := by
  intro ids
  induction ids with
  | nil =>
    intro st d st' hc h
    simp [getRandomPokemon] at h
  | cons i rest ih =>
    intro st d st' hc h
    have hc1 : CohP env (getPokemonData env st i).2 := getPokemonData_coh env st i hc
    simp only [getRandomPokemon] at h
    cases hd : (getPokemonData env st i).1 with
    | none =>
      simp only [hd] at h
      exact ih _ d st' hc1 h
    | some p =>
      have hp : env.pokemon i = some p := getPokemonData_sound env st i p hc hd
      simp only [hd] at h
      split at h
      case isTrue hev =>
        simp only at h
        have hcE : CohP env (isFullyEvolved env (getPokemonData env st i).2 i).2 :=
          cohP_of_pcache_eq (isFullyEvolved_pcache env _ i) hc1
        split at h
        case isTrue hskip => exact ih _ _ _ hcE h
        case isFalse hskip =>
          split at h
          case isTrue hlegF =>
            have hcL : CohP env
                (isLegendary env (isFullyEvolved env (getPokemonData env st i).2 i).2 i).2 :=
              cohP_of_pcache_eq (isLegendary_pcache env _ i) hcE
            split at h
            case isTrue hlegskip => exact ih _ _ _ hcL h
            case isFalse hlegskip =>
              split at h
              case isTrue htyskip => exact ih _ _ _ hcL h
              case isFalse hty =>
                rw [Prod.mk.injEq] at h
                obtain ⟨h1, h2⟩ := h
                obtain rfl : p = d := by simpa using h1
                refine ⟨?_, ?_, ?_⟩
                · rw [hwf i _ hp]
                  exact hp
                · simpa using hty
                · rw [← h2]
                  exact hcL
          case isFalse hlegF =>
            simp only at h
            split at h
            case isTrue hff => simp at hff
            case isFalse hff =>
              split at h
              case isTrue htyskip => exact ih _ _ _ hcE h
              case isFalse hty =>
                rw [Prod.mk.injEq] at h
                obtain ⟨h1, h2⟩ := h
                obtain rfl : p = d := by simpa using h1
                refine ⟨?_, ?_, ?_⟩
                · rw [hwf i _ hp]
                  exact hp
                · simpa using hty
                · rw [← h2]
                  exact hcE
      case isFalse hev =>
        simp only at h
        split at h
        case isTrue hff0 => simp at hff0
        case isFalse hff0 =>
          split at h
          case isTrue hlegF =>
            have hcL : CohP env (isLegendary env (getPokemonData env st i).2 i).2 :=
              cohP_of_pcache_eq (isLegendary_pcache env _ i) hc1
            split at h
            case isTrue hlegskip => exact ih _ _ _ hcL h
            case isFalse hlegskip =>
              split at h
              case isTrue htyskip => exact ih _ _ _ hcL h
              case isFalse hty =>
                rw [Prod.mk.injEq] at h
                obtain ⟨h1, h2⟩ := h
                obtain rfl : p = d := by simpa using h1
                refine ⟨?_, ?_, ?_⟩
                · rw [hwf i _ hp]
                  exact hp
                · simpa using hty
                · rw [← h2]
                  exact hcL
          case isFalse hlegF =>
            simp only at h
            split at h
            case isTrue hty => exact ih _ _ _ hc1 h
            case isFalse hty =>
              rw [Prod.mk.injEq] at h
              obtain ⟨h1, h2⟩ := h
              obtain rfl : p = d := by simpa using h1
              refine ⟨?_, ?_, ?_⟩
              · rw [hwf i _ hp]
                exact hp
              · simpa using hty
              · rw [← h2]
                exact hc1

/-- Inserting the source's own record keeps the cache coherent. -/
theorem cohP_insertP (env : Env) (st : St) (i : Nat) (d : Pokemon)
    (hc : CohP env st) (he : env.pokemon i = some d) : CohP env (insertP i d st) := by
  intro j e hj
  rw [insertP, alookup_cons] at hj
  by_cases h2 : JKey.num i = JKey.num j
  · rw [if_pos h2] at hj
    have hij : i = j := by simpa using h2
    subst hij
    have hde : d = e := by simpa using hj
    subst hde
    exact he
  · rw [if_neg h2] at hj
    exact hc j e hj

/-- The prefetcher only inserts records fetched from the source, so it
keeps the primary cache coherent. -/
theorem prefetchPokemon_coh (env : Env) : ∀ (ids : List Nat) (st : St),
    CohP env st → CohP env (prefetchPokemon env ids st)
  | [], st, hc => hc
  | i :: rest, st, hc => by
    rw [prefetchPokemon]
    simp only [List.foldl_cons]
    have hstep : CohP env (match lookupP st i with
        | some _ => st
        | none => match env.pokemon i with
          | some d => insertP i d st
          | none => st) := by
      cases hl : lookupP st i with
      | some d => simpa [hl] using hc
      | none =>
        cases he : env.pokemon i with
        | some d => simpa [hl, he] using cohP_insertP env st i d hc he
        | none => simpa [hl, he] using hc
    exact prefetchPokemon_coh env rest _ hstep

/-- The species prefetcher never touches the primary cache. -/
theorem prefetchSpecies_pcache (env : Env) : ∀ (ids : List Nat) (st : St),
    (prefetchSpecies env ids st).pcache = st.pcache
  | [], st => rfl
  | i :: rest, st => by
    rw [prefetchSpecies]
    simp only [List.foldl_cons]
    have hstep : (match lookupS st i with
        | some _ => st
        | none => match env.species i with
          | some s => insertS i s st
          | none => st).pcache = st.pcache := by
      cases hl : lookupS st i with
      | some s => simp [hl]
      | none => cases he : env.species i <;> simp [hl, he, insertS]
    rw [← hstep]
    exact prefetchSpecies_pcache env rest _

/-- Main fill-loop invariant with the type filter active: the loop only
appends records (`new`) whose tag sets are pairwise disjoint and disjoint
from every committed entry, each being the source's record for its id
with a non-empty tag set. -/
theorem fillLoop_inv (env : Env) (rho : Nat → List Nat) (evoF legF : Bool)
    (hwf : EnvWF env) (htne : EnvTypesNE env) :
    ∀ (fuel k : Nat) (sel : List Pokemon) (types : List String) (st : St),
      CohP env st →
      (∀ s, s ∈ sel → ∀ t, t ∈ s.types → t ∈ types) →
      ∃ new, (fillLoop env rho true evoF legF k fuel sel types st).1 = sel ++ new ∧
        List.Pairwise TypeDisj new ∧
        (∀ d, d ∈ new → ∀ s, s ∈ sel → TypeDisj s d) ∧
        (∀ d, d ∈ new → env.pokemon d.id = some d ∧ d.types ≠ []) := by
  intro fuel
  induction fuel with
  | zero =>
    intro k sel types st hc hsub
    exact ⟨[], by simp [fillLoop], by simp, by simp, by simp⟩
  | succ n ih =>
    intro k sel types st hc hsub
    cases hr : getRandomPokemon env st (rho k) (some types) evoF legF with
    | mk rp rst =>
      cases rp with
      | none =>
        refine ⟨[], ?_, by simp, by simp, by simp⟩
        simp [fillLoop, hr]
      | some d =>
        obtain ⟨hfaith, hdisj, hc'⟩ :=
          getRandomPokemon_sound env types evoF legF hwf (rho k) st d rst hc hr
        have hsub' : ∀ s, s ∈ sel ++ [d] → ∀ t, t ∈ s.types → t ∈ types ++ d.types := by
          intro s hs t ht
          rcases List.mem_append.mp hs with h1 | h1
          · exact List.mem_append.mpr (Or.inl (hsub s h1 t ht))
          · have hsd : s = d := by simpa using h1
            subst hsd
            exact List.mem_append.mpr (Or.inr ht)
        obtain ⟨new, hroster, hpair, hold, hfacts⟩ :=
          ih (k + 1) (sel ++ [d]) (types ++ d.types) rst hc' hsub'
        refine ⟨d :: new, ?_, ?_, ?_, ?_⟩
        · have hstep : fillLoop env rho true evoF legF k (n + 1) sel types st =
              fillLoop env rho true evoF legF (k + 1) n (sel ++ [d]) (types ++ d.types) rst := by
            simp [fillLoop, hr]
          rw [hstep, hroster]
          simp
        · exact List.Pairwise.cons (fun e he => hold e he d (by simp)) hpair
        · intro e he s hsel
          rcases List.mem_cons.mp he with h1 | h1
          · subst h1
            intro t hts hte
            exact hdisj t hte (hsub s hsel t hts)
          · exact hold e h1 s (List.mem_append.mpr (Or.inl hsel))
        · intro e he
          rcases List.mem_cons.mp he with h1 | h1
          · subst h1
            exact ⟨hfaith, htne e.id e hfaith⟩
          · exact hfacts e h1

/-- One manual pick preserves cache coherence and, with the type filter
active, the committed-roster invariant. -/
theorem manualOne_inv (env : Env) (legF : Bool) (hwf : EnvWF env) (ts : TeamState)
    (name : String) (hc : CohP env ts.st)
    (hfa : ∀ s, s ∈ ts.roster → env.pokemon s.id = some s)
    (hsub : ∀ s, s ∈ ts.roster → ∀ t, t ∈ s.types → t ∈ ts.usedTypes) :
    CohP env (processManualOne env true legF ts name).st ∧
    (∀ s, s ∈ (processManualOne env true legF ts name).roster → env.pokemon s.id = some s) ∧
    (∀ s, s ∈ (processManualOne env true legF ts name).roster →
      ∀ t, t ∈ s.types → t ∈ (processManualOne env true legF ts name).usedTypes) := by
  by_cases hn : name = ""
  · simp only [processManualOne, hn, if_pos]
    exact ⟨hc, hfa, hsub⟩
  · simp only [processManualOne, if_neg hn]
    cases hix : nameIndex env.allNames name with
    | none =>
      simp only [hix]
      exact ⟨hc, hfa, hsub⟩
    | some k =>
      simp only [hix]
      cases hd : (getPokemonData env ts.st (k + 1)).1 with
      | none =>
        simp only [hd]
        exact ⟨getPokemonData_coh env ts.st (k + 1) hc, hfa, hsub⟩
      | some d =>
        have hfd : env.pokemon d.id = some d := by
          have h1 := getPokemonData_sound env ts.st (k + 1) d hc hd
          rw [hwf (k + 1) d h1]
          exact h1
        have hcD : CohP env (getPokemonData env ts.st (k + 1)).2 :=
          getPokemonData_coh env ts.st (k + 1) hc
        have haccept : ∀ (X : St), CohP env X →
            CohP env (TeamState.mk (ts.roster ++ [d])
                (ts.usedTypes ++ d.types) ts.warns X).st ∧
            (∀ s, s ∈ (TeamState.mk (ts.roster ++ [d])
                (ts.usedTypes ++ d.types) ts.warns X).roster → env.pokemon s.id = some s) ∧
            (∀ s, s ∈ (TeamState.mk (ts.roster ++ [d])
                (ts.usedTypes ++ d.types) ts.warns X).roster →
              ∀ t, t ∈ s.types →
                t ∈ (TeamState.mk (ts.roster ++ [d])
                  (ts.usedTypes ++ d.types) ts.warns X).usedTypes) := by
          intro X hcX
          refine ⟨hcX, ?_, ?_⟩
          · intro s hs
            rcases List.mem_append.mp hs with h1 | h1
            · exact hfa s h1
            · have hsd : s = d := by simpa using h1
              subst hsd
              exact hfd
          · intro s hs t ht
            rcases List.mem_append.mp hs with h1 | h1
            · exact List.mem_append.mpr (Or.inl (hsub s h1 t ht))
            · have hsd : s = d := by simpa using h1
              subst hsd
              exact List.mem_append.mpr (Or.inr ht)
        cases legF with
        | false =>
          simp only [hd, Bool.false_eq_true, if_false, if_pos]
          exact haccept _ hcD
        | true =>
          simp only [hd, if_pos]
          cases hl : (isLegendary env (getPokemonData env ts.st (k + 1)).2 (k + 1)).1 with
          | true =>
            simp only [hl, if_pos]
            refine ⟨?_, hfa, hsub⟩
            exact cohP_of_pcache_eq (isLegendary_pcache env _ (k + 1)) hcD
          | false =>
            simp only [hl, Bool.false_eq_true, if_false]
            exact haccept _ (cohP_of_pcache_eq (isLegendary_pcache env _ (k + 1)) hcD)

/-- The manual-selection loop preserves the committed-roster invariant. -/
theorem processManual_inv (env : Env) (legF : Bool) (hwf : EnvWF env) :
    ∀ (names : List String) (ts : TeamState),
      CohP env ts.st →
      (∀ s, s ∈ ts.roster → env.pokemon s.id = some s) →
      (∀ s, s ∈ ts.roster → ∀ t, t ∈ s.types → t ∈ ts.usedTypes) →
      CohP env (processManual env true legF names ts).st ∧
      (∀ s, s ∈ (processManual env true legF names ts).roster → env.pokemon s.id = some s) ∧
      (∀ s, s ∈ (processManual env true legF names ts).roster →
        ∀ t, t ∈ s.types → t ∈ (processManual env true legF names ts).usedTypes)
  | [], ts, hc, hfa, hsub => ⟨hc, hfa, hsub⟩
  | name :: rest, ts, hc, hfa, hsub => by
    rw [processManual]
    simp only [List.foldl_cons]
    obtain ⟨hc', hfa', hsub'⟩ := manualOne_inv env legF hwf ts name hc hfa hsub
    exact processManual_inv env legF hwf rest _ hc' hfa' hsub'

/-- After prefetch and manual picks, the caches are coherent and every
committed entry's tags sit inside `selected_types`. -/
theorem manualStage_inv (env : Env) (gens : List Nat) (names : List String) (legF : Bool)
    (hwf : EnvWF env) (st : St) (hc : CohP env st) :
    CohP env (manualStage env gens names true legF st).st ∧
    (∀ s, s ∈ (manualStage env gens names true legF st).roster → env.pokemon s.id = some s) ∧
    (∀ s, s ∈ (manualStage env gens names true legF st).roster →
      ∀ t, t ∈ s.types → t ∈ (manualStage env gens names true legF st).usedTypes) := by
  have hc1 : CohP env (prefetchPokemon env (validIds gens) st) :=
    prefetchPokemon_coh env _ st hc
  have hc2 : CohP env
      (prefetchSpecies env (validIds gens) (prefetchPokemon env (validIds gens) st)) :=
    cohP_of_pcache_eq (prefetchSpecies_pcache env _ _) hc1
  simp only [manualStage]
  exact processManual_inv env legF hwf names ⟨[], [], [], _⟩ hc2 (by simp) (by simp)

/-- C1 (amended): with the type-uniqueness filter active, over a source
whose records carry their own id and non-empty tag sets, no random-fill
entry repeats the id of any manual entry or of another random-fill entry.
(The unamended claim is refuted by `roster_duplicate_ids_counterexample`:
with the type filter off, nothing stops a repeat.) -/
theorem fill_entries_fresh_ids (env : Env) (rho : Nat → List Nat) (gens : List Nat)
    (names : List String) (evoF legF : Bool) (st : St)
    (hwf : EnvWF env) (htne : EnvTypesNE env) (hc : CohP env st) :
    ∃ new, (generateTeam env rho gens names true evoF legF st).roster =
        (manualStage env gens names true legF st).roster ++ new ∧
      (new.map Pokemon.id).Nodup ∧
      (∀ d, d ∈ new →
        d.id ∉ (manualStage env gens names true legF st).roster.map Pokemon.id) := by
  obtain ⟨hc', hfa, hsub⟩ := manualStage_inv env gens names legF hwf st hc
  obtain ⟨new, hroster, hpair, hold, hfacts⟩ :=
    fillLoop_inv env rho evoF legF hwf htne
      (6 - (manualStage env gens names true legF st).roster.length) 0
      (manualStage env gens names true legF st).roster
      (manualStage env gens names true legF st).usedTypes
      (manualStage env gens names true legF st).st hc' hsub
  refine ⟨new, ?_, ?_, ?_⟩
  · simp only [generateTeam]
    exact hroster
  · have hne : List.Pairwise (fun a b : Pokemon => a.id ≠ b.id) new := by
      refine hpair.imp_of_mem ?_
      intro a b ha hb hab heq
      have hfa2 := (hfacts a ha).1
      have hfb := (hfacts b hb).1
      rw [heq, hfb] at hfa2
      have hab2 : b = a := by simpa using hfa2
      subst hab2
      have htne2 : b.types ≠ [] := (hfacts b hb).2
      obtain ⟨t, ht⟩ := List.exists_mem_of_ne_nil b.types htne2
      exact hab t ht ht
    simpa [List.Nodup, List.pairwise_map] using hne
  · intro d hd hmem
    obtain ⟨s, hsmem, hsid⟩ := List.mem_map.mp hmem
    have h1 := hfa s hsmem
    have h2 := (hfacts d hd).1
    rw [hsid] at h1
    have hsd : s = d := by
      have h3 := h1.symm.trans h2
      simpa using h3
    have hdisj : TypeDisj s d := hold d hd s hsmem
    have htne2 : d.types ≠ [] := (hfacts d hd).2
    obtain ⟨t, ht⟩ := List.exists_mem_of_ne_nil d.types htne2
    exact hdisj t (hsd ▸ ht) ht

/-- C3 (amended): with the type-uniqueness filter active, over a source
whose records carry their own id and non-empty tag sets, every
random-fill entry's tag set is disjoint from every other roster entry's
(manual or random); only pairs of manual picks may overlap, as
`type_filter_manual_overlap_counterexample` shows. -/
theorem fill_entries_type_disjoint (env : Env) (rho : Nat → List Nat) (gens : List Nat)
    (names : List String) (evoF legF : Bool) (st : St)
    (hwf : EnvWF env) (htne : EnvTypesNE env) (hc : CohP env st) :
    ∃ new, (generateTeam env rho gens names true evoF legF st).roster =
        (manualStage env gens names true legF st).roster ++ new ∧
      List.Pairwise TypeDisj new ∧
      (∀ d, d ∈ new →
        ∀ s, s ∈ (manualStage env gens names true legF st).roster → TypeDisj s d) := by
  obtain ⟨hc', hfa, hsub⟩ := manualStage_inv env gens names legF hwf st hc
  obtain ⟨new, hroster, hpair, hold, hfacts⟩ :=
    fillLoop_inv env rho evoF legF hwf htne
      (6 - (manualStage env gens names true legF st).roster.length) 0
      (manualStage env gens names true legF st).roster
      (manualStage env gens names true legF st).usedTypes
      (manualStage env gens names true legF st).st hc' hsub
  refine ⟨new, ?_, hpair, hold⟩
  simp only [generateTeam]
  exact hroster

/-- A fill round in which no candidate survives warns and stops the loop
immediately. -/
theorem fillLoop_stop (env : Env) (rho : Nat → List Nat) (typeF evoF legF : Bool)
    (k fuel : Nat) (sel : List Pokemon) (types : List String) (st : St)
    (hf : fuel ≠ 0)
    (hnone : (getRandomPokemon env st (rho k)
      (if typeF then some types else none) evoF legF).1 = none) :
    (fillLoop env rho typeF evoF legF k fuel sel types st).1 = sel ∧
    (fillLoop env rho typeF evoF legF k fuel sel types st).2.1 = true := by
  cases fuel with
  | zero => exact absurd rfl hf
  | succ n => simp [fillLoop, hnone]

/-- C7: the fill loop always terminates (it is fuel-bounded by the open
roster slots, mirroring the loop that adds one entry per iteration or
breaks); in particular with the candidate set shrunk to one id whose
record is notable while the legendary filter is active, the cycle ends
exhausted (PARTIAL) with an empty roster instead of looping. -/
theorem single_candidate_filter_exhausts (env : Env) (rho : Nat → List Nat) (st : St)
    (i : Nat) (typeF : Bool)
    (hrho : ∀ k, rho k = [i])
    (hleg : (isLegendary env (getPokemonData env st i).2 i).1 = true) :
    (fillLoop env rho typeF false true 0 6 [] [] st).1 = [] ∧
    (fillLoop env rho typeF false true 0 6 [] [] st).2.1 = true := by
  apply fillLoop_stop
  · simp
  · rw [hrho 0]
    simp only [getRandomPokemon]
    cases hd : (getPokemonData env st i).1 with
    | none => simp [hd, getRandomPokemon]
    | some d => simp [hd, hleg, getRandomPokemon]

/-- Witness for C7 at a concrete one-candidate legendary source. -/
theorem single_candidate_filter_exhausts_witness :
    (fillLoop envLeg (fun _ => [1]) false false true 0 6 [] [] st0).1 = [] ∧
    (fillLoop envLeg (fun _ => [1]) false false true 0 6 [] [] st0).2.1 = true :=
  single_candidate_filter_exhausts envLeg (fun _ => [1]) st0 1 false
    (fun _ => rfl) (by decide)

/-- C8: a manual pick whose name resolves and whose record is fetchable
is rejected, with a user-visible warning, exactly when the legendary
filter is active and the entity is notable; the outcome is the same for
every value of the type filter, and `processManualOne` does not consult
the evolution filter at all, so neither can reject a manual pick. -/
theorem manual_pick_reject_iff_notable (env : Env) (typeF legF : Bool) (ts : TeamState)
    (name : String) (k : Nat) (d : Pokemon)
    (hname : ¬ name = "")
    (hix : nameIndex env.allNames name = some k)
    (hd : (getPokemonData env ts.st (k + 1)).1 = some d) :
    (processManualOne env typeF legF ts name).roster =
      ts.roster ++
        (if legF && (isLegendary env (getPokemonData env ts.st (k + 1)).2 (k + 1)).1
         then [] else [d]) ∧
    (processManualOne env typeF legF ts name).warns =
      ts.warns ++
        (if legF && (isLegendary env (getPokemonData env ts.st (k + 1)).2 (k + 1)).1
         then [name] else []) := by
  cases legF with
  | false => simp [processManualOne, hname, hix, hd]
  | true =>
    cases hl : (isLegendary env (getPokemonData env ts.st (k + 1)).2 (k + 1)).1 with
    | true => simp [processManualOne, hname, hix, hd, hl]
    | false => simp [processManualOne, hname, hix, hd, hl]

/-- Witness for C8: a notable manual pick is skipped with a warning. -/
theorem manual_pick_reject_iff_notable_witness :
    (processManualOne envLeg false true ⟨[], [], [], st0⟩ "Mewtwo").roster = [] ∧
    (processManualOne envLeg false true ⟨[], [], [], st0⟩ "Mewtwo").warns = ["Mewtwo"] := by
  have h := manual_pick_reject_iff_notable envLeg false true ⟨[], [], [], st0⟩ "Mewtwo" 0 pLeg
    (by decide) (by decide) (by decide)
  constructor
  · rw [h.1]
    decide
  · rw [h.2]
    decide

set_option maxRecDepth 40000 in
/-- C1 (counterexample): a full cycle with all three filters off, over a
source where only id 1 is fetchable, returns a roster whose six entries
all have id 1 -- each fill round reshuffles the whole candidate list and
never checks ids already chosen. -/
theorem roster_duplicate_ids_counterexample :
    (generateTeam envMono (fun _ => validIds [1]) [1] ["", "", "", "", "", ""]
      false false false st0).roster.map Pokemon.id = [1, 1, 1, 1, 1, 1] := by
  decide

set_option maxRecDepth 40000 in
/-- C3 (counterexample): with the type-uniqueness filter active, two
manual picks sharing the tag "grass" are both kept (manual picks are
never tested against `usedTypes`), so two distinct roster entries share
a type tag. -/
theorem type_filter_manual_overlap_counterexample :
    (generateTeam envDuo (fun _ => validIds [1]) [1]
      ["Bulbasaur", "Oddish", "", "", "", ""] true false false st0).roster = [pA, pB] ∧
    "grass" ∈ pA.types ∧ "grass" ∈ pB.types ∧ pA.id ≠ pB.id := by
  refine ⟨by decide, by decide, by decide, by decide⟩

/-- Witness for the amended C1 at a concrete two-record source. -/
theorem fill_entries_fresh_ids_witness :
    ∃ new, (generateTeam envFire (fun _ => validIds [1]) [1] ["", "", "", "", "", ""]
        true false false st0).roster =
        (manualStage envFire [1] ["", "", "", "", "", ""] true false st0).roster ++ new ∧
      (new.map Pokemon.id).Nodup ∧
      (∀ d, d ∈ new →
        d.id ∉ (manualStage envFire [1] ["", "", "", "", "", ""]
          true false st0).roster.map Pokemon.id) :=
  fill_entries_fresh_ids envFire (fun _ => validIds [1]) [1] ["", "", "", "", "", ""]
    false false st0
    (by
      intro i d h
      simp only [envFire] at h
      split at h
      case isTrue h1 =>
        subst h1
        have h3 : pA = d := by simpa using h
        subst h3
        decide
      case isFalse h1 =>
        split at h
        case isTrue h2 =>
          subst h2
          have h3 : pC = d := by simpa using h
          subst h3
          decide
        case isFalse h2 => simp at h)
    (by
      intro i d h
      simp only [envFire] at h
      split at h
      case isTrue h1 =>
        have h3 : pA = d := by simpa using h
        subst h3
        decide
      case isFalse h1 =>
        split at h
        case isTrue h2 =>
          have h3 : pC = d := by simpa using h
          subst h3
          decide
        case isFalse h2 => simp at h)
    (by
      intro i d h
      simp [st0, alookup] at h)

/-- Witness for the amended C3 at a concrete two-record source. -/
theorem fill_entries_type_disjoint_witness :
    ∃ new, (generateTeam envFire (fun _ => validIds [1, 1]) [1, 1] ["", "", "", "", "", ""]
        true false false st0).roster =
        (manualStage envFire [1, 1] ["", "", "", "", "", ""] true false st0).roster ++ new ∧
      List.Pairwise TypeDisj new ∧
      (∀ d, d ∈ new →
        ∀ s, s ∈ (manualStage envFire [1, 1] ["", "", "", "", "", ""]
          true false st0).roster → TypeDisj s d) :=
  fill_entries_type_disjoint envFire (fun _ => validIds [1, 1]) [1, 1] ["", "", "", "", "", ""]
    false false st0
    (by
      intro i d h
      simp only [envFire] at h
      split at h
      case isTrue h1 =>
        subst h1
        have h3 : pA = d := by simpa using h
        subst h3
        decide
      case isFalse h1 =>
        split at h
        case isTrue h2 =>
          subst h2
          have h3 : pC = d := by simpa using h
          subst h3
          decide
        case isFalse h2 => simp at h)
    (by
      intro i d h
      simp only [envFire] at h
      split at h
      case isTrue h1 =>
        have h3 : pA = d := by simpa using h
        subst h3
        decide
      case isFalse h1 =>
        split at h
        case isTrue h2 =>
          have h3 : pC = d := by simpa using h
          subst h3
          decide
        case isFalse h2 => simp at h)
    (by
      intro i d h
      simp [st0, alookup] at h)
